import Mathlib

/-!
Verification development for the stock-service repository.

The program's numeric values (Python ints and floats) are modelled as exact
rationals (`Rat`); machine-float rounding artifacts are outside the model.
Python's builtin `round` is round-half-to-even, embedded as `pyRound` below.
Fallible Python code (code that can raise) is embedded with `Except`.
-/

namespace StockService

/-- Python's builtin round(x) on a rational: round half to even. -/
def pyRound (x : Rat) : Int :=
  let f : Int := x.floor
  let r : Rat := x - (f : Rat)
  if r < 1/2 then f
  else if 1/2 < r then f + 1
  else if f % 2 = 0 then f else f + 1

/-- Python's round(x, 2): round half to even at two decimal places. -/
def pyRound2 (x : Rat) : Rat := ((pyRound (x * 100) : Rat)) / 100

/-- Python's int() applied to a float value: truncation toward zero. -/
def truncRat (x : Rat) : Int := if 0 ≤ x then x.floor else x.ceil

/-- Python str.strip(): drop leading and trailing whitespace characters. -/
def trimChars (cs : List Char) : List Char :=
  ((cs.dropWhile Char.isWhitespace).reverse.dropWhile Char.isWhitespace).reverse

/-- Numeric value of a list of ASCII digit characters. -/
def digitsVal (cs : List Char) : Nat :=
  cs.foldl (fun a c => a * 10 + (c.toNat - 48)) 0

/-- Exponent suffix of a Python float literal: optional sign then digits,
with nothing allowed after them. -/
def pyFloatExp (sgn mant : Rat) (cs : List Char) : Option Rat :=
  let esgn : Int := if cs.head? = some '-' then -1 else 1
  let cs1 : List Char :=
    if cs.head? = some '-' ∨ cs.head? = some '+' then cs.drop 1 else cs
  let ed := cs1.takeWhile Char.isDigit
  let rest := cs1.dropWhile Char.isDigit
  if ed = [] ∨ rest ≠ [] then none
  else some (sgn * mant * (10 : Rat) ^ (esgn * (digitsVal ed : Int)))

/-- Models CPython's builtin float(str) on plain decimal literals:
optional surrounding whitespace, optional sign, digits with an optional
decimal point (at least one digit overall), optional e/E exponent.
Returns none where the builtin raises ValueError.  (Restriction: the
"inf"/"nan" spellings and underscore digit separators, which the crawler
never produces, are treated as unparsable.) -/
def pyFloatChars (cs0 : List Char) : Option Rat :=
  let cs := trimChars cs0
  let sgn : Rat := if cs.head? = some '-' then -1 else 1
  let cs1 : List Char :=
    if cs.head? = some '-' ∨ cs.head? = some '+' then cs.drop 1 else cs
  let ip := cs1.takeWhile Char.isDigit
  let cs2 := cs1.dropWhile Char.isDigit
  let fp : List Char :=
    if cs2.head? = some '.' then (cs2.drop 1).takeWhile Char.isDigit else []
  let cs3 : List Char :=
    if cs2.head? = some '.' then (cs2.drop 1).dropWhile Char.isDigit else cs2
  if ip = [] ∧ fp = [] then none
  else
    let mant : Rat := (digitsVal (ip ++ fp) : Rat) / ((10 : Rat) ^ fp.length)
    match cs3 with
    | [] => some (sgn * mant)
    | 'e' :: rest => pyFloatExp sgn mant rest
    | 'E' :: rest => pyFloatExp sgn mant rest
    | _ => none

/-- Embeds ThsCrawler._parse_number (src/app/crawler/ths_crawler.py).
All the patterns it replaces are single characters, so str.replace is
embedded as a character filter.  The percent branch calls float() outside
any try block, so an unparsable remainder there raises ValueError,
embedded as `.error ()`; every other unparsable remainder yields 0.0. -/
def parse_number (text : String) : Except Unit Rat :=
  if text = "" ∨ text = "-" then .ok 0
  else
    let t : List Char := (trimChars text.data).filter (fun c => c ≠ ',')
    if t.contains '%' then
      let t2 := t.filter (fun c => c ≠ '%')
      if t2 = [] then .ok 0
      else
        match pyFloatChars t2 with
        | some v => .ok v
        | none => .error ()
    else
      let mult : Rat := if t.contains '亿' then 100000000 else if t.contains '万' then 10000 else 1
      let t3 : List Char :=
        if t.contains '亿' then t.filter (fun c => c ≠ '亿')
        else if t.contains '万' then t.filter (fun c => c ≠ '万')
        else t
      if t3 = [] then .ok 0
      else
        match pyFloatChars t3 with
        | some v => .ok (v * mult)
        | none => .ok 0

/-! ## Sentiment Scorer (src/app/service/market_service.py, get_market_emotion) -/

/-- The market breadth snapshot read from crawler.get_market_statistics(). -/
structure MarketStats where
  total_stocks : Nat
  up_count : Nat
  down_count : Nat
  flat_count : Nat
  limit_up_count : Nat
  limit_down_count : Nat
deriving DecidableEq

/-- The MarketEmotion record (the date field is not modelled). -/
structure MarketEmotion where
  total_stocks : Nat
  up_count : Nat
  down_count : Nat
  flat_count : Nat
  limit_up_count : Nat
  limit_down_count : Nat
  emotion_score : Rat
  emotion_cycle : String
deriving DecidableEq

/-- Embeds the emotion_score accumulation of get_market_emotion, before the
final clamp: base 50, breadth term, limit-extremes term, and the sector
breadth adjustment.  Sectors are represented by their change_pct values. -/
def emotionRaw (st : MarketStats) (sectors : List Rat) : Rat :=
  let base : Rat := 50
  let s1 : Rat :=
    if st.total_stocks > 0 then
      base + (((st.up_count : Rat) / (st.total_stocks : Rat)) - 1/2) * 40
           + (((st.limit_up_count : Rat) / (st.total_stocks : Rat))
              - ((st.limit_down_count : Rat) / (st.total_stocks : Rat))) * 30
    else base
  let upSectors := (sectors.filter (fun p => 0 < p)).length
  if sectors ≠ [] then
    if (upSectors : Rat) > (sectors.length : Rat) * (3/5) then s1 + 10
    else if (upSectors : Rat) < (sectors.length : Rat) * (2/5) then s1 - 10
    else s1
  else s1

/-- Embeds the clamp max(0, min(100, score)). -/
def clamp0100 (x : Rat) : Rat := max 0 (min 100 x)

/-- Embeds the emotion_cycle threshold chain of get_market_emotion
(applied by the code to the clamped, unrounded score). -/
def emotion_cycle_of (score : Rat) : String :=
  if score ≥ 75 then "上升期"
  else if score ≥ 60 then "活跃"
  else if score ≥ 40 then "震荡"
  else if score ≥ 25 then "退潮期"
  else "冰点期"

/-- Embeds MarketService.get_market_emotion (success path). -/
def get_market_emotion (st : MarketStats) (sectors : List Rat) : MarketEmotion :=
  let clamped := clamp0100 (emotionRaw st sectors)
  { total_stocks := st.total_stocks, up_count := st.up_count,
    down_count := st.down_count, flat_count := st.flat_count,
    limit_up_count := st.limit_up_count, limit_down_count := st.limit_down_count,
    emotion_score := pyRound2 clamped,
    emotion_cycle := emotion_cycle_of clamped }

/-- The Sentiment Scorer formula as §4.3 of the spec words it: start at 50;
when total_stocks > 0 add the breadth term and the limit-extremes term;
then add 10 when up sectors exceed 60% of all sectors, subtract 10 when
they are below 40%. -/
def emotionScoreSpec (st : MarketStats) (sectors : List Rat) : Rat :=
  let breadth : Rat :=
    if st.total_stocks > 0 then
      (((st.up_count : Rat) / (st.total_stocks : Rat)) - 1/2) * 40 else 0
  let extremes : Rat :=
    if st.total_stocks > 0 then
      (((st.limit_up_count : Rat) / (st.total_stocks : Rat))
        - ((st.limit_down_count : Rat) / (st.total_stocks : Rat))) * 30 else 0
  let upSectors := (sectors.filter (fun p => 0 < p)).length
  let sectorAdj : Rat :=
    if (upSectors : Rat) > (sectors.length : Rat) * (3/5) then 10
    else if (upSectors : Rat) < (sectors.length : Rat) * (2/5) then -10
    else 0
  50 + breadth + extremes + sectorAdj

/-- The cycle classification as the spec words it (first match, high to low:
75 rising, 60 active, 40 choppy, 25 receding, else freezing), with the
code's label strings: 上升期 = rising, 活跃 = active, 震荡 = choppy,
退潮期 = receding, 冰点期 = freezing. -/
def emotionCycleSpec (score : Rat) : String :=
  if 75 ≤ score then "上升期"
  else if 60 ≤ score then "活跃"
  else if 40 ≤ score then "震荡"
  else if 25 ≤ score then "退潮期"
  else "冰点期"

/-! ## Sector Rotation Analyzer (src/app/service/sector_service.py) -/

/-- A sector record as consumed by analyze_sector_rotation (the dict keys
the code reads, all present with the types the crawler produces). -/
structure SectorRecord where
  code : String
  name : String
  change_pct : Rat
  limit_up_count : Int
  up_count : Int
  total_stocks : Int
deriving DecidableEq

/-- One output row of analyze_sector_rotation. -/
structure SectorRotation where
  code : String
  name : String
  hot_score : Rat
  momentum : String
  rotation_trend : String
  change_pct : Rat
  limit_up_count : Int
deriving DecidableEq

/-- Embeds the per-sector body of SectorService.analyze_sector_rotation:
hot-score accumulation, momentum and rotation-trend classification.
The code classifies momentum on the unrounded accumulated hot_score and
stores round(hot_score, 2). -/
def rotationEntry (s : SectorRecord) : SectorRotation :=
  let h1 : Rat := if s.change_pct > 0 then 0 + min (s.change_pct * 10) 50 else 0
  let h2 : Rat := if s.limit_up_count > 0 then h1 + min ((s.limit_up_count : Rat) * 5) 30 else h1
  let h3 : Rat :=
    if s.up_count > 0 then
      h2 + (if s.total_stocks > 0 then (s.up_count : Rat) / (s.total_stocks : Rat) else 0) * 20
    else h2
  let momentum := if h3 ≥ 70 then "strong" else if h3 ≥ 40 then "medium" else "weak"
  let trend :=
    if s.change_pct > 3 ∧ s.limit_up_count > 5 then "in"
    else if s.change_pct < -3 then "out"
    else "stable"
  { code := s.code, name := s.name, hot_score := pyRound2 h3, momentum := momentum,
    rotation_trend := trend, change_pct := s.change_pct, limit_up_count := s.limit_up_count }

/-- Stable descending insertion by hot_score: an element is placed before
the first entry whose hot_score does not exceed it, so an entry inserted
later (earlier in the original list) precedes entries of equal score. -/
def insertDesc (x : SectorRotation) : List SectorRotation → List SectorRotation
  | [] => [x]
  | y :: ys => if y.hot_score ≤ x.hot_score then x :: y :: ys else y :: insertDesc x ys

/-- Stable descending sort by hot_score, modelling Python's stable
list.sort(key=hot_score, reverse=True). -/
def sortDesc (l : List SectorRotation) : List SectorRotation := l.foldr insertDesc []

/-- Embeds SectorService.analyze_sector_rotation: map each sector to its
rotation entry, then sort descending by hot_score (stable). -/
def analyze_sector_rotation (sectors : List SectorRecord) : List SectorRotation :=
  sortDesc (sectors.map rotationEntry)

/-- The per-sector computation as §4.4 of the spec words it: three capped
contributions summed (the third zero when up_count ≤ 0 or total_stocks ≤ 0),
momentum thresholds 70/40, trend "in" iff change_pct > 3 AND
limit_up_count > 5, "out" iff change_pct < -3 otherwise.  Classification is
on the unrounded sum; the stored hot_score is its 2-decimal rounding. -/
def rotationEntrySpec (s : SectorRecord) : SectorRotation :=
  let a : Rat := if s.change_pct > 0 then min (s.change_pct * 10) 50 else 0
  let b : Rat := if s.limit_up_count > 0 then min ((s.limit_up_count : Rat) * 5) 30 else 0
  let c : Rat :=
    if s.up_count > 0 ∧ s.total_stocks > 0 then ((s.up_count : Rat) / (s.total_stocks : Rat)) * 20
    else 0
  let hot := a + b + c
  { code := s.code, name := s.name, hot_score := pyRound2 hot,
    momentum := if 70 ≤ hot then "strong" else if 40 ≤ hot then "medium" else "weak",
    rotation_trend :=
      if s.change_pct > 3 ∧ s.limit_up_count > 5 then "in"
      else if s.change_pct < -3 then "out"
      else "stable",
    change_pct := s.change_pct, limit_up_count := s.limit_up_count }

/-! ## Market Review Aggregator (src/app/service/market_review_service.py)

The akshare calls are abstracted as a `Sources` record.  `none` in an
`Option` field means the call raised an exception; `some` carries the
returned table.  stock_zt_pool_em is called three separate times by the
code (limit-up count, consecutive-board pool, burst fallback); the three
calls can fail or return data independently, so they appear as three
fields.  Pandas column presence checks appear as Bool flags. -/

/-- A dict of string keys to string values, as produced by
DataFrame.to_dict('records') for the code/name columns. -/
abbrev StockDict := List (String × String)

/-- One row of stock_zt_pool_em: 代码, 名称, 连板数, 炸板次数. -/
structure ContRow where
  code : String
  name : String
  board : Int
  burst : Int
deriving DecidableEq

/-- A stock_zt_pool_em result table with its column-presence flags. -/
structure ContTable where
  rows : List ContRow
  hasBoardCol : Bool
  hasBurstCol : Bool
deriving DecidableEq

/-- One row of the full-market snapshot stock_zh_a_spot_em: 涨跌幅, 成交额, 成交量. -/
structure SnapRow where
  change_pct : Rat
  amount : Rat
  vol : Rat
deriving DecidableEq

/-- A stock_zh_a_spot_em result table with its column-presence flags. -/
structure SnapTable where
  rows : List SnapRow
  hasPctCol : Bool
  hasAmountCol : Bool
  hasVolCol : Bool
deriving DecidableEq

/-- The external data accessed by one get_market_review_data run.
prevLimitUp models MarketReviewModel.get_by_date on the previous calendar
day: none = the lookup raised, some none = no record, some (some k) =
a record whose limit_up_count is k. -/
structure Sources where
  akAvailable : Bool
  limitUpPool : Option Nat
  limitDownPool : Option Nat
  contPool : Option ContTable
  snapshot : Option SnapTable
  burstPool : Option Nat
  burstFallback : Option ContTable
  prevLimitUp : Option (Option Nat)
deriving DecidableEq

/-- The dict returned by get_market_review_data. -/
structure ReviewResult where
  date : String
  volume : Int
  red_count : Nat
  green_count : Nat
  limit_up_count : Nat
  limit_down_count : Nat
  zt_count : Nat
  zt_rate : Int
  total_continuous_limit : Nat
  continuous_limit_rate : Int
  four_plus_count : Nat
  four_plus_stocks : List StockDict
  two_board_count : Nat
  three_board_count : Nat
  three_board_stocks : List StockDict
  total_stocks : Nat
  red_rate : Int
  market_strength : String
  max_continuous_days : Int
  first_board_count : Int
  three_board_stocks_with_sector : List StockDict
  four_plus_stocks_with_sector : List StockDict
deriving DecidableEq

/-- Embeds MarketReviewService._get_empty_data; `today` is the current
date string the code formats. -/
def _get_empty_data (today : String) : ReviewResult :=
  { date := today, volume := 0, red_count := 0, green_count := 0,
    limit_up_count := 0, limit_down_count := 0, zt_count := 0, zt_rate := 0,
    total_continuous_limit := 0, continuous_limit_rate := 0,
    four_plus_count := 0, four_plus_stocks := [], two_board_count := 0,
    three_board_count := 0, three_board_stocks := [], total_stocks := 0,
    red_rate := 0, market_strength := "", max_continuous_days := 0,
    first_board_count := 0, three_board_stocks_with_sector := [],
    four_plus_stocks_with_sector := [] }

/-- Embeds MarketReviewService._calculate_market_strength. -/
def _calculate_market_strength (red_count green_count total_stocks : Nat) : String :=
  if total_stocks = 0 then ""
  else
    let red_rate : Rat := (red_count : Rat) / (total_stocks : Rat)
    if red_rate ≥ 4/5 then "极强"
    else if red_rate ≥ 3/5 then "强"
    else if red_rate ≥ 1/2 then "偏强"
    else if red_rate ≥ 2/5 then "中性"
    else if red_rate ≥ 1/5 then "偏弱"
    else "弱"

/-- Embeds MarketReviewService._get_max_continuous_days applied to the
four-plus sub-table (which always carries the 连板数 column). -/
def _get_max_continuous_days (rows : List ContRow) : Int :=
  if rows = [] then 0 else rows.foldl (fun a r => max a r.board) 0

/-- The 代码/名称 dict for one pool row, as produced by
df[['代码', '名称']].to_dict('records'). -/
def rowDict (r : ContRow) : StockDict := [("代码", r.code), ("名称", r.name)]

/-- Embeds MarketReviewService._extract_stocks_with_sector: each entry is
rebuilt from the keys 'name' and 'code' (missing keys give ''), with an
always-empty sector tag. -/
def _extract_stocks_with_sector (stocks_list : List StockDict) : List StockDict :=
  stocks_list.map fun st =>
    [("name", (List.lookup "name" st).getD ""),
     ("code", (List.lookup "code" st).getD ""),
     ("sector", "")]

/-- The values produced by step 3 (consecutive-board pool) of
get_market_review_data.  fourPlusDefined records whether the local
variable four_plus_df was assigned: it is assigned only when the pool
call succeeded, returned a non-empty table, and the 连板数 column exists. -/
structure ContData where
  total : Nat
  twoCount : Nat
  threeCount : Nat
  fourCount : Nat
  fourRows : List ContRow
  fourStocks : List StockDict
  threeStocks : List StockDict
  fourPlusDefined : Bool
deriving DecidableEq

/-- Embeds step 3 of get_market_review_data (lines 93-128). -/
def contStep (p : Option ContTable) : ContData :=
  match p with
  | none => ⟨0, 0, 0, 0, [], [], [], false⟩
  | some t =>
    if t.rows = [] then ⟨0, 0, 0, 0, [], [], [], false⟩
    else if t.hasBoardCol then
      let twoRows := t.rows.filter (fun r => r.board = 2)
      let threeRows := t.rows.filter (fun r => r.board = 3)
      let fourRows := t.rows.filter (fun r => r.board ≥ 4)
      ⟨t.rows.length, twoRows.length, threeRows.length, fourRows.length, fourRows,
        if fourRows ≠ [] then fourRows.map rowDict else [],
        if threeRows.length > 0 then threeRows.map rowDict else [],
        true⟩
    else ⟨t.rows.length, 0, 0, 0, [], [], [], false⟩

/-- The values produced by step 4 (market statistics) of
get_market_review_data. -/
structure StatsData where
  total_stocks : Nat
  red_count : Nat
  green_count : Nat
  volume : Int
deriving DecidableEq

/-- Embeds step 4 of get_market_review_data (lines 130-175): skipped with
all zeros when step 1 signalled an invalid date; a raised call, an empty
snapshot, or missing columns degrade to zeros. -/
def statsStep (is_valid_date : Bool) (p : Option SnapTable) : StatsData :=
  if ¬ is_valid_date then ⟨0, 0, 0, 0⟩
  else
    match p with
    | none => ⟨0, 0, 0, 0⟩
    | some t =>
      if t.rows = [] then ⟨0, 0, 0, 0⟩
      else
        { total_stocks := t.rows.length,
          red_count :=
            if t.hasPctCol then (t.rows.filter (fun r => r.change_pct > 0)).length else 0,
          green_count :=
            if t.hasPctCol then (t.rows.filter (fun r => r.change_pct < 0)).length else 0,
          volume :=
            if t.hasAmountCol then truncRat ((t.rows.map SnapRow.amount).sum)
            else if t.hasVolCol then truncRat ((t.rows.map SnapRow.vol).sum)
            else 0 }

/-- Embeds step 5 of get_market_review_data (lines 177-205): the burst
pool size, with a fallback count of pool rows whose 炸板次数 exceeds 0;
an exception anywhere in the block zeroes both zt_count and zt_rate. -/
def ztStep (bp : Option Nat) (bf : Option ContTable) (limit_up_count : Nat) : Nat × Int :=
  match bp with
  | none => (0, 0)
  | some n =>
    let ztOpt : Option Nat :=
      if n > 0 then some n
      else
        match bf with
        | none => none
        | some t =>
          if t.rows ≠ [] then
            if t.hasBurstCol then some ((t.rows.filter (fun r => r.burst > 0)).length)
            else some 0
          else some 0
    match ztOpt with
    | none => (0, 0)
    | some zt =>
      let total_zt := zt + limit_up_count
      (zt, if total_zt > 0 then pyRound (((zt : Rat) / (total_zt : Rat)) * 100) else 0)

/-- Embeds step 6 of get_market_review_data (lines 207-239): the rate from
the previous day's persisted limit_up_count; 0 when the lookup succeeds
but finds no record or a zero count; the total_stocks denominator is used
only when the lookup raises. -/
def rateStep (prev : Option (Option Nat)) (total_continuous_limit total_stocks : Nat) : Int :=
  match prev with
  | none =>
    if total_stocks > 0 then
      pyRound (((total_continuous_limit : Rat) / (total_stocks : Rat)) * 100)
    else 0
  | some r =>
    let prevLu := r.getD 0
    if prevLu > 0 then
      pyRound (((total_continuous_limit : Rat) / (prevLu : Rat)) * 100)
    else 0

/-- Formats YYYYMMDD as YYYY-MM-DD (line 242). -/
def formatTradeDate (s : String) : String :=
  (s.take 4) ++ "-" ++ ((s.drop 4).take 2) ++ "-" ++ ((s.drop 6).take 2)

/-- Embeds MarketReviewService.get_market_review_data for a well-formed
YYYYMMDD trade_date.  When the local variable four_plus_df was never
assigned (consecutive-board pool raised, empty, or without the 连板数
column), line 264 raises UnboundLocalError, the outer handler catches it,
and the all-zeroed record dated today is returned. -/
def get_market_review_data (src : Sources) (trade_date today : String) : ReviewResult :=
  if ¬ src.akAvailable then _get_empty_data today
  else
    let limit_up_count : Nat := src.limitUpPool.getD 0
    let is_valid_date : Bool :=
      match src.limitUpPool with
      | none => false
      | some n => n != 0
    let limit_down_count : Nat := src.limitDownPool.getD 0
    let c := contStep src.contPool
    let s := statsStep is_valid_date src.snapshot
    let zt := ztStep src.burstPool src.burstFallback limit_up_count
    let continuous_limit_rate := rateStep src.prevLimitUp c.total s.total_stocks
    if ¬ c.fourPlusDefined then _get_empty_data today
    else
      { date := formatTradeDate trade_date,
        volume := s.volume,
        red_count := s.red_count,
        green_count := s.green_count,
        limit_up_count := limit_up_count,
        limit_down_count := limit_down_count,
        zt_count := zt.1,
        zt_rate := zt.2,
        total_continuous_limit := c.total,
        continuous_limit_rate := continuous_limit_rate,
        four_plus_count := c.fourCount,
        four_plus_stocks := c.fourStocks,
        two_board_count := c.twoCount,
        three_board_count := c.threeCount,
        three_board_stocks := c.threeStocks,
        total_stocks := s.total_stocks,
        red_rate :=
          if s.total_stocks > 0 then
            pyRound (((s.red_count : Rat) / (s.total_stocks : Rat)) * 100)
          else 0,
        market_strength := _calculate_market_strength s.red_count s.green_count s.total_stocks,
        max_continuous_days := _get_max_continuous_days c.fourRows,
        first_board_count :=
          if limit_up_count ≠ 0 ∧ c.total ≠ 0 then
            max 0 ((limit_up_count : Int) - (c.total : Int))
          else 0,
        three_board_stocks_with_sector := _extract_stocks_with_sector c.threeStocks,
        four_plus_stocks_with_sector := _extract_stocks_with_sector c.fourStocks }

/-! ## Review Store (src/app/models/database.py)

The list-valued columns are persisted through json.dumps(..,
ensure_ascii=False) and re-read through json.loads inside
_row_to_dict.parse_json_field.  The serializer below follows json.dumps
for the value shapes those columns hold (arrays of string-valued objects
and arrays of strings, default separators ", " / ": ", non-ASCII passed
through): strings escape backslash and double quote; the \uXXXX escapes
json.dumps emits for control characters are outside the model, so the
round-trip theorems assume field text without control characters.  The
parser is json.loads restricted to those same shapes. -/

/-- json.dumps escaping of one character (backslash and quote only;
everything else passes through under ensure_ascii=False). -/
def escChars : List Char → List Char
  | [] => []
  | c :: cs => (if c = '\\' ∨ c = '\"' then ['\\', c] else [c]) ++ escChars cs

/-- A JSON string literal: quote, escaped content, quote. -/
def jstrChars (s : String) : List Char := '\"' :: (escChars s.data ++ ['\"'])

/-- One `"key": "value"` member. -/
def dumpsPairChars (p : String × String) : List Char :=
  jstrChars p.1 ++ ':' :: ' ' :: jstrChars p.2

/-- The ", "-separated members after the first one. -/
def dumpsPairsTail : List (String × String) → List Char
  | [] => []
  | p :: ps => ',' :: ' ' :: (dumpsPairChars p ++ dumpsPairsTail ps)

/-- json.dumps of one string-valued object. -/
def dumpsDictChars : StockDict → List Char
  | [] => ['\x7b', '\x7d']
  | p :: ps => '\x7b' :: ((dumpsPairChars p ++ dumpsPairsTail ps) ++ ['\x7d'])

/-- The ", "-separated objects after the first one. -/
def dumpsDictsTail : List StockDict → List Char
  | [] => []
  | d :: ds => ',' :: ' ' :: (dumpsDictChars d ++ dumpsDictsTail ds)

/-- json.dumps of an array of string-valued objects. -/
def dumpsStockListChars : List StockDict → List Char
  | [] => ['[', ']']
  | d :: ds => '[' :: ((dumpsDictChars d ++ dumpsDictsTail ds) ++ [']'])

/-- The ", "-separated strings after the first one. -/
def dumpsStrsTail : List String → List Char
  | [] => []
  | s :: ss => ',' :: ' ' :: (jstrChars s ++ dumpsStrsTail ss)

/-- json.dumps of an array of strings (the hot_sectors column). -/
def dumpsStrListChars : List String → List Char
  | [] => ['[', ']']
  | s :: ss => '[' :: ((jstrChars s ++ dumpsStrsTail ss) ++ [']'])

/-- json.dumps of an array of string-valued objects, as a column value. -/
def dumpsStockList (l : List StockDict) : String := String.mk (dumpsStockListChars l)

/-- json.dumps of an array of strings, as a column value. -/
def dumpsStrList (l : List String) : String := String.mk (dumpsStrListChars l)

/-- Parses the body of a JSON string literal after its opening quote,
unescaping backslash and quote. -/
def parseJStrAux (acc : List Char) : List Char → Option (String × List Char)
  | [] => none
  | c :: rest =>
    if c = '\\' then
      match rest with
      | [] => none
      | c2 :: rest2 =>
        if c2 = '\\' ∨ c2 = '\"' then parseJStrAux (c2 :: acc) rest2 else none
    else if c = '\"' then some (String.mk acc.reverse, rest)
    else parseJStrAux (c :: acc) rest

/-- Parses one JSON string literal. -/
def parseJStr : List Char → Option (String × List Char)
  | '\"' :: rest => parseJStrAux [] rest
  | _ => none

/-- Parses one `"key": "value"` member. -/
def parsePair (cs : List Char) : Option ((String × String) × List Char) :=
  match parseJStr cs with
  | none => none
  | some (k, r1) =>
    match r1 with
    | ':' :: ' ' :: r2 =>
      match parseJStr r2 with
      | none => none
      | some (v, r3) => some ((k, v), r3)
    | _ => none

/-- Parses the members of an object after the first one, up to the
closing brace. -/
def parsePairsRest : Nat → List (String × String) → List Char → Option (StockDict × List Char)
  | _, acc, '\x7d' :: rest => some (acc.reverse, rest)
  | Nat.succ fuel, acc, ',' :: ' ' :: rest =>
    match parsePair rest with
    | some (p, r) => parsePairsRest fuel (p :: acc) r
    | none => none
  | _, _, _ => none

/-- Parses one string-valued JSON object. -/
def parseDict (fuel : Nat) (cs : List Char) : Option (StockDict × List Char) :=
  match cs with
  | '\x7b' :: '\x7d' :: rest => some ([], rest)
  | '\x7b' :: rest =>
    match parsePair rest with
    | some (p, r) => parsePairsRest fuel [p] r
    | none => none
  | _ => none

/-- Parses the items of an object array after the first one. -/
def parseDictsRest (fuel0 : Nat) :
    Nat → List StockDict → List Char → Option (List StockDict × List Char)
  | _, acc, ']' :: rest => some (acc.reverse, rest)
  | Nat.succ fuel, acc, ',' :: ' ' :: rest =>
    match parseDict fuel0 rest with
    | some (d, r) => parseDictsRest fuel0 fuel (d :: acc) r
    | none => none
  | _, _, _ => none

/-- Parses a JSON array of string-valued objects. -/
def parseStockListChars (fuel : Nat) (cs : List Char) : Option (List StockDict × List Char) :=
  match cs with
  | '[' :: ']' :: rest => some ([], rest)
  | '[' :: rest =>
    match parseDict fuel rest with
    | some (d, r) => parseDictsRest fuel fuel [d] r
    | none => none
  | _ => none

/-- Parses the items of a string array after the first one. -/
def parseStrsRest : Nat → List String → List Char → Option (List String × List Char)
  | _, acc, ']' :: rest => some (acc.reverse, rest)
  | Nat.succ fuel, acc, ',' :: ' ' :: rest =>
    match parseJStr rest with
    | some (s, r) => parseStrsRest fuel (s :: acc) r
    | none => none
  | _, _, _ => none

/-- Parses a JSON array of strings. -/
def parseStrListChars (fuel : Nat) (cs : List Char) : Option (List String × List Char) :=
  match cs with
  | '[' :: ']' :: rest => some ([], rest)
  | '[' :: rest =>
    match parseJStr rest with
    | some (s, r) => parseStrsRest fuel [s] r
    | none => none
  | _ => none

/-- json.loads restricted to arrays of string-valued objects; none when
the text is not such an array (json.loads raising). -/
def loadsStockLists (s : String) : Option (List StockDict) :=
  match parseStockListChars s.length s.data with
  | some (l, []) => some l
  | _ => none

/-- json.loads restricted to arrays of strings. -/
def loadsStrList (s : String) : Option (List String) :=
  match parseStrListChars s.length s.data with
  | some (l, []) => some l
  | _ => none

/-- Embeds parse_json_field of _row_to_dict for object-list columns:
NULL, '' and '[]' give []; anything json.loads rejects gives []. -/
def parse_json_field_dicts (v : Option String) : List StockDict :=
  match v with
  | none => []
  | some s => if s = "" ∨ s = "[]" then [] else (loadsStockLists s).getD []

/-- Embeds parse_json_field of _row_to_dict for the hot_sectors column. -/
def parse_json_field_strs (v : Option String) : List String :=
  match v with
  | none => []
  | some s => if s = "" ∨ s = "[]" then [] else (loadsStrList s).getD []

/-- The dict handed to MarketReviewModel.create (all keys present, as the
aggregation pipeline produces them). -/
structure ReviewData where
  date : String
  volume : Int
  red_count : Int
  green_count : Int
  limit_up_count : Int
  limit_down_count : Int
  zt_count : Int
  zt_rate : Int
  total_continuous_limit : Int
  continuous_limit_rate : Int
  four_plus_count : Int
  four_plus_stocks : List StockDict
  two_board_count : Int
  three_board_count : Int
  three_board_stocks : List StockDict
  total_stocks : Int
  hot_sectors : List String
  notes : String
  red_rate : Int
  market_strength : String
  max_continuous_days : Int
  first_board_count : Int
  three_board_stocks_with_sector : List StockDict
  four_plus_stocks_with_sector : List StockDict
deriving DecidableEq

/-- One persisted market_review row: the list-valued columns hold the
serialized text (nullable), scalars hold their inserted values. -/
structure StoredRow where
  id : Nat
  date : String
  volume : Int
  red_count : Int
  green_count : Int
  limit_up_count : Int
  limit_down_count : Int
  zt_count : Int
  zt_rate : Int
  total_continuous_limit : Int
  continuous_limit_rate : Int
  four_plus_count : Int
  four_plus_stocks : Option String
  two_board_count : Int
  three_board_count : Int
  three_board_stocks : Option String
  total_stocks : Int
  hot_sectors : Option String
  notes : String
  red_rate : Int
  market_strength : String
  max_continuous_days : Int
  first_board_count : Int
  three_board_stocks_with_sector : Option String
  four_plus_stocks_with_sector : Option String
deriving DecidableEq

/-- The market_review table with its AUTO_INCREMENT counter. -/
structure Store where
  rows : List StoredRow
  nextId : Nat
deriving DecidableEq

/-- The dict returned by MarketReviewModel._row_to_dict (created_at and
updated_at are not modelled). -/
structure ReviewRecord where
  id : Nat
  date : Option String
  volume : Int
  red_count : Int
  green_count : Int
  limit_up_count : Int
  limit_down_count : Int
  zt_count : Int
  zt_rate : Int
  total_continuous_limit : Int
  continuous_limit_rate : Int
  four_plus_count : Int
  four_plus_stocks : List StockDict
  two_board_count : Int
  three_board_count : Int
  three_board_stocks : List StockDict
  total_stocks : Int
  hot_sectors : List String
  notes : String
  red_rate : Int
  market_strength : String
  max_continuous_days : Int
  first_board_count : Int
  three_board_stocks_with_sector : List StockDict
  four_plus_stocks_with_sector : List StockDict
deriving DecidableEq

namespace MarketReviewModel

/-- Embeds MarketReviewModel.create.  Modelled from the spec: the MySQL
schema is not under src/, and the spec's §3 invariant "date is unique —
creation must fail (not overwrite) if a record for that date exists" is
modelled as the unique-key check that makes the INSERT raise
IntegrityError; the except branch then returns None with the store
unmodified (nothing was committed). -/
def create (st : Store) (d : ReviewData) : Option Nat × Store :=
  if st.rows.any (fun r => r.date = d.date) then (none, st)
  else
    let row : StoredRow :=
      { id := st.nextId, date := d.date, volume := d.volume,
        red_count := d.red_count, green_count := d.green_count,
        limit_up_count := d.limit_up_count, limit_down_count := d.limit_down_count,
        zt_count := d.zt_count, zt_rate := d.zt_rate,
        total_continuous_limit := d.total_continuous_limit,
        continuous_limit_rate := d.continuous_limit_rate,
        four_plus_count := d.four_plus_count,
        four_plus_stocks := some (dumpsStockList d.four_plus_stocks),
        two_board_count := d.two_board_count,
        three_board_count := d.three_board_count,
        three_board_stocks := some (dumpsStockList d.three_board_stocks),
        total_stocks := d.total_stocks,
        hot_sectors := some (dumpsStrList d.hot_sectors),
        notes := d.notes, red_rate := d.red_rate,
        market_strength := d.market_strength,
        max_continuous_days := d.max_continuous_days,
        first_board_count := d.first_board_count,
        three_board_stocks_with_sector :=
          some (dumpsStockList d.three_board_stocks_with_sector),
        four_plus_stocks_with_sector :=
          some (dumpsStockList d.four_plus_stocks_with_sector) }
    (some st.nextId, { rows := st.rows ++ [row], nextId := st.nextId + 1 })

/-- Embeds MarketReviewModel._row_to_dict. -/
def _row_to_dict (r : StoredRow) : ReviewRecord :=
  { id := r.id,
    date := if r.date = "" then none else some r.date,
    volume := r.volume, red_count := r.red_count, green_count := r.green_count,
    limit_up_count := r.limit_up_count, limit_down_count := r.limit_down_count,
    zt_count := r.zt_count, zt_rate := r.zt_rate,
    total_continuous_limit := r.total_continuous_limit,
    continuous_limit_rate := r.continuous_limit_rate,
    four_plus_count := r.four_plus_count,
    four_plus_stocks := parse_json_field_dicts r.four_plus_stocks,
    two_board_count := r.two_board_count,
    three_board_count := r.three_board_count,
    three_board_stocks := parse_json_field_dicts r.three_board_stocks,
    total_stocks := r.total_stocks,
    hot_sectors := parse_json_field_strs r.hot_sectors,
    notes := r.notes, red_rate := r.red_rate,
    market_strength := r.market_strength,
    max_continuous_days := r.max_continuous_days,
    first_board_count := r.first_board_count,
    three_board_stocks_with_sector :=
      parse_json_field_dicts r.three_board_stocks_with_sector,
    four_plus_stocks_with_sector :=
      parse_json_field_dicts r.four_plus_stocks_with_sector }

/-- Embeds MarketReviewModel.get_by_date. -/
def get_by_date (st : Store) (date : String) : Option ReviewRecord :=
  match st.rows.find? (fun r => r.date = date) with
  | some r => some (_row_to_dict r)
  | none => none

end MarketReviewModel

/-! ## Concrete instances used by the claim theorems -/

/-- A run in which every source delivers data except the consecutive-board
pool, whose call raises: limit-down pool has 5 rows, the snapshot has two
rows, the burst pool one row, and the prior-day record exists. -/
def srcC1 : Sources :=
  { akAvailable := true, limitUpPool := some 2, limitDownPool := some 5,
    contPool := none,
    snapshot := some ⟨[⟨1, 1000, 0⟩, ⟨-2, 500, 0⟩], true, true, true⟩,
    burstPool := some 1, burstFallback := some ⟨[], true, true⟩,
    prevLimitUp := some (some 4) }

/-- A run with one consecutive-board row, a two-row snapshot, and a store
lookup that succeeds but finds no prior record. -/
def srcC3 : Sources :=
  { akAvailable := true, limitUpPool := some 1, limitDownPool := some 0,
    contPool := some ⟨[⟨"a", "b", 2, 0⟩], true, true⟩,
    snapshot := some ⟨[⟨1, 0, 0⟩, ⟨1, 0, 0⟩], true, true, true⟩,
    burstPool := some 0, burstFallback := some ⟨[], true, true⟩,
    prevLimitUp := some none }

/-- srcC3 with a prior-day record whose limit_up_count is 4. -/
def srcC3b : Sources := { srcC3 with prevLimitUp := some (some 4) }

/-- srcC3 with a store lookup that raises. -/
def srcC3c : Sources := { srcC3 with prevLimitUp := none }

/-- The §8 end-to-end snapshot: 4000 rows, 2500 with positive change_pct. -/
def snapC4 : SnapTable :=
  { rows := List.replicate 2500 ⟨1, 0, 0⟩ ++ List.replicate 1500 ⟨-1, 0, 0⟩,
    hasPctCol := true, hasAmountCol := true, hasVolCol := true }

/-- The §8 end-to-end scenario: limit-up pool 50 rows, limit-down pool 5,
consecutive-board pool rows with board counts 2, 3 and 5, snapC4, no
prior-day record. -/
def srcC4 : Sources :=
  { akAvailable := true, limitUpPool := some 50, limitDownPool := some 5,
    contPool := some ⟨[⟨"c1", "n1", 2, 0⟩, ⟨"c2", "n2", 3, 0⟩, ⟨"c3", "n3", 5, 0⟩], true, true⟩,
    snapshot := some snapC4,
    burstPool := some 0, burstFallback := some ⟨[], true, true⟩,
    prevLimitUp := some none }

/-- The aggregation result of the §8 scenario. -/
def reviewC4 : ReviewResult := get_market_review_data srcC4 "20250106" "2025-01-06"

/-- A run whose consecutive-board pool holds a three-board and a five-board
stock, to exercise the with-sector enrichment. -/
def srcC10 : Sources :=
  { akAvailable := true, limitUpPool := some 2, limitDownPool := some 0,
    contPool := some ⟨[⟨"300001", "甲", 3, 0⟩, ⟨"300002", "乙", 5, 1⟩], true, true⟩,
    snapshot := some ⟨[⟨1, 0, 0⟩], true, true, true⟩,
    burstPool := some 0, burstFallback := some ⟨[], true, true⟩,
    prevLimitUp := some (some 7) }

/-- The aggregation result of srcC10. -/
def reviewC10 : ReviewResult := get_market_review_data srcC10 "20250106" "2025-01-06"

/-- A review dict with non-empty list fields, including quote and backslash
characters that json.dumps must escape. -/
def dataC8 : ReviewData :=
  { date := "2025-01-05", volume := 1, red_count := 2, green_count := 3,
    limit_up_count := 4, limit_down_count := 5, zt_count := 6, zt_rate := 7,
    total_continuous_limit := 8, continuous_limit_rate := 9, four_plus_count := 1,
    four_plus_stocks := [[("代码", "300750"), ("名称", "宁德时代")]],
    two_board_count := 0, three_board_count := 2,
    three_board_stocks := [[("代码", "600519"), ("名称", "贵州茅台")],
      [("代码", "000001"), ("名称", "平安\"银行\\")]],
    total_stocks := 5000, hot_sectors := ["半导体", "光伏"], notes := "n",
    red_rate := 50, market_strength := "强", max_continuous_days := 5,
    first_board_count := 2,
    three_board_stocks_with_sector := [[("name", ""), ("code", ""), ("sector", "")]],
    four_plus_stocks_with_sector := [] }

/-- An empty store. -/
def storeEmpty : Store := ⟨[], 1⟩

/-- A persisted row dated 2025-01-05. -/
def rowC9 : StoredRow :=
  { id := 1, date := "2025-01-05", volume := 10, red_count := 1, green_count := 1,
    limit_up_count := 3, limit_down_count := 0, zt_count := 0, zt_rate := 0,
    total_continuous_limit := 1, continuous_limit_rate := 33, four_plus_count := 0,
    four_plus_stocks := some "[]", two_board_count := 1, three_board_count := 0,
    three_board_stocks := none, total_stocks := 100, hot_sectors := some "",
    notes := "", red_rate := 1, market_strength := "弱", max_continuous_days := 0,
    first_board_count := 2, three_board_stocks_with_sector := none,
    four_plus_stocks_with_sector := none }

/-- A store already holding rowC9. -/
def storeC9 : Store := ⟨[rowC9], 2⟩

/-- A review dict for the date rowC9 already occupies. -/
def dataC9 : ReviewData := { dataC8 with date := "2025-01-05" }

end StockService

deriving instance DecidableEq for Except

namespace StockService

/-! ## Helper lemmas -/

unseal Rat.add Rat.sub Rat.mul Rat.inv in
theorem pyRound_zero : pyRound 0 = 0 := by decide

theorem emotionRaw_eq_spec (st : MarketStats) (sectors : List Rat) :
    emotionRaw st sectors = emotionScoreSpec st sectors := by
  unfold emotionRaw emotionScoreSpec
  rcases sectors with _ | ⟨p, ps⟩
  · simp
    split_ifs <;> ring
  · simp only [ne_eq, reduceCtorEq, not_false_iff, if_true, ite_true]
    split_ifs <;> ring

theorem emotion_cycle_eq_spec (x : Rat) : emotion_cycle_of x = emotionCycleSpec x := by
  unfold emotion_cycle_of emotionCycleSpec
  rfl

theorem rotationEntry_eq_spec (s : SectorRecord) : rotationEntry s = rotationEntrySpec s := by
  by_cases h1 : s.change_pct > 0 <;>
  by_cases h2 : s.limit_up_count > 0 <;>
  by_cases h3 : s.up_count > 0 <;>
  by_cases h4 : s.total_stocks > 0 <;>
  simp only [rotationEntry, rotationEntrySpec, h1, h2, h3, h4, if_true, if_false,
    ite_true, ite_false, and_self, and_true, true_and, and_false, false_and,
    not_true, not_false_iff, ge_iff_le, SectorRotation.mk.injEq] <;>
  ring_nf <;>
  simp

theorem mem_insertDesc (x z : SectorRotation) (l : List SectorRotation) :
    z ∈ insertDesc x l ↔ z = x ∨ z ∈ l := by
  induction l with
  | nil => simp [insertDesc]
  | cons y ys ih =>
    by_cases h : y.hot_score ≤ x.hot_score
    · simp [insertDesc, h]
      try tauto
    · simp [insertDesc, h, ih]
      tauto

theorem insertDesc_pairwise (x : SectorRotation) (l : List SectorRotation)
    (h : l.Pairwise (fun a b => b.hot_score ≤ a.hot_score)) :
    (insertDesc x l).Pairwise (fun a b => b.hot_score ≤ a.hot_score) := by
  induction l with
  | nil => simp [insertDesc]
  | cons y ys ih =>
    rcases List.pairwise_cons.mp h with ⟨hy, hys⟩
    by_cases hc : y.hot_score ≤ x.hot_score
    · simp only [insertDesc, if_pos hc]
      refine List.pairwise_cons.mpr ⟨?_, h⟩
      intro b hb
      rcases List.mem_cons.mp hb with hb | hb
      · subst hb; exact hc
      · exact (hy b hb).trans hc
    · simp only [insertDesc, if_neg hc]
      refine List.pairwise_cons.mpr ⟨?_, ih hys⟩
      intro b hb
      rcases (mem_insertDesc x b ys).mp hb with hb | hb
      · subst hb; exact le_of_lt (lt_of_not_le hc)
      · exact hy b hb

theorem sortDesc_pairwise (l : List SectorRotation) :
    (sortDesc l).Pairwise (fun a b => b.hot_score ≤ a.hot_score) := by
  induction l with
  | nil => simp [sortDesc]
  | cons x xs ih => exact insertDesc_pairwise x (sortDesc xs) ih

theorem filter_insertDesc (c : Rat) (x : SectorRotation) (l : List SectorRotation) :
    (insertDesc x l).filter (fun e => e.hot_score == c)
      = if x.hot_score = c then
          x :: l.filter (fun e => e.hot_score == c)
        else l.filter (fun e => e.hot_score == c) := by
  induction l with
  | nil =>
    by_cases hx : x.hot_score = c
    · simp [insertDesc, List.filter, hx]
    · have hb : (x.hot_score == c) = false := by simp [hx]
      simp [insertDesc, List.filter, hx, hb]
  | cons y ys ih =>
    by_cases hc : y.hot_score ≤ x.hot_score
    · simp only [insertDesc, if_pos hc]
      by_cases hx : x.hot_score = c
      · simp [List.filter, hx]
      · simp only [List.filter, if_neg hx]
        have : (x.hot_score == c) = false := by simp [hx]
        simp [this]
    · simp only [insertDesc, if_neg hc]
      have hyx : x.hot_score < y.hot_score := lt_of_not_le hc
      by_cases hx : x.hot_score = c
      · have hy : (y.hot_score == c) = false := by
          simp only [beq_eq_false_iff_ne, ne_eq]
          intro hcon
          rw [← hx] at hcon
          exact absurd hcon (ne_of_gt hyx)
        simp [List.filter_cons, hy, ih, hx]
      · simp [List.filter_cons, ih, hx]

theorem filter_sortDesc (c : Rat) (l : List SectorRotation) :
    (sortDesc l).filter (fun e => e.hot_score == c)
      = l.filter (fun e => e.hot_score == c) := by
  induction l with
  | nil => simp [sortDesc]
  | cons x xs ih =>
    show (insertDesc x (sortDesc xs)).filter (fun e => e.hot_score == c) = _
    rw [filter_insertDesc]
    by_cases hx : x.hot_score = c
    · simp [List.filter_cons, hx, ih]
    · have : (x.hot_score == c) = false := by simp [hx]
      simp [List.filter_cons, hx, this, ih]

theorem contStep_total_ne_zero (p : Option ContTable)
    (h : (contStep p).fourPlusDefined = true) : (contStep p).total ≠ 0 := by
  match p with
  | none => simp [contStep] at h
  | some t =>
    by_cases hr : t.rows = []
    · simp [contStep, hr] at h
    · by_cases hb : t.hasBoardCol
      · simp [contStep, hr, hb]
      · simp [contStep, hr, hb] at h

theorem extract_entry_empty (rows : List ContRow) (x : StockDict)
    (hx : x ∈ _extract_stocks_with_sector (rows.map rowDict)) :
    x = [("name", ""), ("code", ""), ("sector", "")] := by
  simp only [_extract_stocks_with_sector, List.map_map, List.mem_map] at hx
  obtain ⟨r, hr, rfl⟩ := hx
  simp [rowDict, List.lookup]

theorem contStep_threeStocks_shape (p : Option ContTable) :
    (contStep p).threeStocks = []
      ∨ ∃ rows : List ContRow, (contStep p).threeStocks = rows.map rowDict := by
  match p with
  | none => left; simp [contStep]
  | some t =>
    by_cases hr : t.rows = []
    · left; simp [contStep, hr]
    · by_cases hb : t.hasBoardCol
      · simp only [contStep, hr, hb, if_neg, reduceIte]
        by_cases h3 : (t.rows.filter (fun r => r.board = 3)).length > 0
        · right
          refine ⟨t.rows.filter (fun r => r.board = 3), ?_⟩
          simp [h3]
        · left; simp [h3]
      · left; simp [contStep, hr, hb]

theorem contStep_fourStocks_shape (p : Option ContTable) :
    (contStep p).fourStocks = []
      ∨ ∃ rows : List ContRow, (contStep p).fourStocks = rows.map rowDict := by
  match p with
  | none => left; simp [contStep]
  | some t =>
    by_cases hr : t.rows = []
    · left; simp [contStep, hr]
    · by_cases hb : t.hasBoardCol
      · simp only [contStep, hr, hb, if_neg, reduceIte]
        by_cases h4 : t.rows.filter (fun r => r.board ≥ 4) ≠ []
        · right
          refine ⟨t.rows.filter (fun r => r.board ≥ 4), ?_⟩
          simp [h4]
        · left; simp [h4]
      · left; simp [contStep, hr, hb]

theorem result_tbsws_eq (src : Sources) (d t : String) :
    (get_market_review_data src d t).three_board_stocks_with_sector
      = _extract_stocks_with_sector ((contStep src.contPool).threeStocks)
      ∨ (get_market_review_data src d t).three_board_stocks_with_sector = [] := by
  unfold get_market_review_data
  by_cases hak : src.akAvailable <;>
    by_cases hfd : (contStep src.contPool).fourPlusDefined <;>
    simp [hak, hfd, _get_empty_data]

theorem result_fpsws_eq (src : Sources) (d t : String) :
    (get_market_review_data src d t).four_plus_stocks_with_sector
      = _extract_stocks_with_sector ((contStep src.contPool).fourStocks)
      ∨ (get_market_review_data src d t).four_plus_stocks_with_sector = [] := by
  unfold get_market_review_data
  by_cases hak : src.akAvailable <;>
    by_cases hfd : (contStep src.contPool).fourPlusDefined <;>
    simp [hak, hfd, _get_empty_data]

theorem statsStep_snapC4 : statsStep true (some snapC4) = ⟨4000, 2500, 1500, 0⟩ := by
  have h1 : ((List.replicate 2500 (⟨1, 0, 0⟩ : SnapRow)
      ++ List.replicate 1500 (⟨-1, 0, 0⟩ : SnapRow)).filter
      (fun r => r.change_pct > 0)).length = 2500 := by
    rw [List.filter_append, List.filter_replicate, List.filter_replicate]
    norm_num
  have h2 : ((List.replicate 2500 (⟨1, 0, 0⟩ : SnapRow)
      ++ List.replicate 1500 (⟨-1, 0, 0⟩ : SnapRow)).filter
      (fun r => r.change_pct < 0)).length = 1500 := by
    rw [List.filter_append, List.filter_replicate, List.filter_replicate]
    norm_num
  have h3 : (((List.replicate 2500 (⟨1, 0, 0⟩ : SnapRow)
      ++ List.replicate 1500 (⟨-1, 0, 0⟩ : SnapRow)).map SnapRow.amount).sum : Rat) = 0 := by
    rw [List.map_append, List.map_replicate, List.map_replicate, List.sum_append,
      List.sum_replicate, List.sum_replicate]
    simp
  have h4 : (List.replicate 2500 (⟨1, 0, 0⟩ : SnapRow)
      ++ List.replicate 1500 (⟨-1, 0, 0⟩ : SnapRow)).length = 4000 := by
    rw [List.length_append, List.length_replicate, List.length_replicate]
  have h5 : (List.replicate 2500 (⟨1, 0, 0⟩ : SnapRow)
      ++ List.replicate 1500 (⟨-1, 0, 0⟩ : SnapRow)) ≠ [] := by
    intro h
    have := congrArg List.length h
    rw [h4] at this
    simp at this
  have htr : truncRat 0 = 0 := by decide
  unfold statsStep snapC4
  simp only [not_true, Bool.true_eq_false, reduceIte, h5, ne_eq,
    not_false_iff, h1, h2, h3, h4, htr]

end StockService

namespace StockService

/-! ## Serialization round-trip lemmas -/

theorem parseJStrAux_esc (s : List Char) : ∀ acc rest,
    parseJStrAux acc (escChars s ++ '\"' :: rest) = some (String.mk (acc.reverse ++ s), rest) := by
  induction s with
  | nil => intro acc rest; simp [escChars, parseJStrAux.eq_def]
  | cons c cs ih =>
    intro acc rest
    by_cases h : c = '\\' ∨ c = '\"'
    · simp only [escChars, if_pos h, List.cons_append, List.nil_append, List.append_assoc]
      rw [parseJStrAux.eq_def]
      simp only [if_pos rfl, h, ih (c :: acc) rest]
      simp
    · simp only [escChars, if_neg h, List.cons_append, List.nil_append]
      push_neg at h
      rw [parseJStrAux.eq_def]
      simp only [if_neg h.1, if_neg h.2, ih (c :: acc) rest]
      simp

theorem parseJStr_jstr (s : String) (rest : List Char) :
    parseJStr (jstrChars s ++ rest) = some (s, rest) := by
  have h := parseJStrAux_esc s.data [] rest
  simp only [List.reverse_nil, List.nil_append] at h
  simp [jstrChars, parseJStr, List.append_assoc, h]

theorem parsePair_dumps (p : String × String) (rest : List Char) :
    parsePair (dumpsPairChars p ++ rest) = some (p, rest) := by
  simp [dumpsPairChars, parsePair, List.append_assoc, parseJStr_jstr]

theorem parsePairsRest_dumps (l : List (String × String)) : ∀ (fuel : Nat)
    (acc : List (String × String)) (rest : List Char), l.length ≤ fuel →
    parsePairsRest fuel acc (dumpsPairsTail l ++ '\x7d' :: rest)
      = some (acc.reverse ++ l, rest) := by
  induction l with
  | nil => intro fuel acc rest _; simp [dumpsPairsTail, parsePairsRest.eq_def]
  | cons p ps ih =>
    intro fuel acc rest hf
    match fuel, hf with
    | Nat.succ f, hf =>
      simp only [dumpsPairsTail, List.cons_append, List.append_assoc]
      rw [parsePairsRest]
      rw [parsePair_dumps]
      show parsePairsRest f (p :: acc) (dumpsPairsTail ps ++ '\x7d' :: rest) = _
      rw [ih f (p :: acc) rest (by simpa using hf)]
      simp

theorem parseDict_dumps (d : StockDict) (fuel : Nat) (rest : List Char)
    (h : d.length ≤ fuel + 1) :
    parseDict fuel (dumpsDictChars d ++ rest) = some (d, rest) := by
  match d with
  | [] => simp [dumpsDictChars, parseDict]
  | p :: ps =>
    have hp : dumpsPairChars p
        = '\"' :: (escChars p.1.data ++ ('\"' :: (':' :: ' ' :: jstrChars p.2))) := by
      simp [dumpsPairChars, jstrChars]
    simp only [dumpsDictChars, List.cons_append, List.append_assoc]
    rw [parseDict]
    · rw [parsePair_dumps]
      show parsePairsRest fuel [p] (dumpsPairsTail ps ++ '\x7d' :: rest) = _
      rw [parsePairsRest_dumps ps fuel [p] rest (by simpa using h)]
      simp
    · intro r hr
      rw [hp] at hr
      simp at hr

theorem two_le_length_jstrChars (s : String) : 2 ≤ (jstrChars s).length := by
  simp [jstrChars]; try omega

theorem length_le_dumpsPairsTail (l : List (String × String)) :
    l.length ≤ (dumpsPairsTail l).length := by
  induction l with
  | nil => simp [dumpsPairsTail]
  | cons p ps ih => simp [dumpsPairsTail]; omega

theorem length_le_dumpsDictChars (d : StockDict) : d.length + 2 ≤ (dumpsDictChars d).length := by
  match d with
  | [] => simp [dumpsDictChars]
  | p :: ps =>
    have h1 := two_le_length_jstrChars p.1
    have h2 := length_le_dumpsPairsTail ps
    simp [dumpsDictChars, dumpsPairChars]
    try omega

theorem length_le_dumpsDictsTail (l : List StockDict) :
    l.length ≤ (dumpsDictsTail l).length := by
  induction l with
  | nil => simp [dumpsDictsTail]
  | cons d ds ih => simp [dumpsDictsTail]; omega

theorem length_le_dumpsStockListChars (l : List StockDict) :
    l.length + 2 ≤ (dumpsStockListChars l).length := by
  match l with
  | [] => simp [dumpsStockListChars]
  | d :: ds =>
    have h1 := length_le_dumpsDictChars d
    have h2 := length_le_dumpsDictsTail ds
    simp [dumpsStockListChars]
    omega

theorem mem_dictsTail_length_le (x : StockDict) (l : List StockDict) (hx : x ∈ l) :
    (dumpsDictChars x).length ≤ (dumpsDictsTail l).length := by
  induction l with
  | nil => simp at hx
  | cons d ds ih =>
    rcases List.mem_cons.mp hx with h | h
    · subst h; simp [dumpsDictsTail]; omega
    · have := ih h; simp [dumpsDictsTail]; omega

theorem mem_length_le_dumpsStockListChars (x : StockDict) (l : List StockDict) (hx : x ∈ l) :
    (dumpsDictChars x).length ≤ (dumpsStockListChars l).length := by
  match l with
  | [] => simp at hx
  | d :: ds =>
    rcases List.mem_cons.mp hx with h | h
    · subst h; simp [dumpsStockListChars]; omega
    · have := mem_dictsTail_length_le x ds h
      simp [dumpsStockListChars]
      omega

theorem head_dumpsDictChars (d : StockDict) : ∃ t, dumpsDictChars d = '\x7b' :: t := by
  match d with
  | [] => exact ⟨_, rfl⟩
  | p :: ps => exact ⟨_, rfl⟩

theorem parseDictsRest_dumps (fuel0 : Nat) (l : List StockDict) : ∀ (fuel : Nat)
    (acc : List StockDict) (rest : List Char), l.length ≤ fuel →
    (∀ x ∈ l, x.length ≤ fuel0 + 1) →
    parseDictsRest fuel0 fuel acc (dumpsDictsTail l ++ ']' :: rest)
      = some (acc.reverse ++ l, rest) := by
  induction l with
  | nil => intro fuel acc rest _ _; simp [dumpsDictsTail, parseDictsRest.eq_def]
  | cons d ds ih =>
    intro fuel acc rest hf hx
    match fuel, hf with
    | Nat.succ f, hf =>
      simp only [dumpsDictsTail, List.cons_append, List.append_assoc]
      rw [parseDictsRest]
      rw [parseDict_dumps d fuel0 _ (hx d (by simp))]
      show parseDictsRest fuel0 f (d :: acc) (dumpsDictsTail ds ++ ']' :: rest) = _
      rw [ih f (d :: acc) rest (by simpa using hf) (fun x h => hx x (by simp [h]))]
      simp

theorem parseStockListChars_dumps (l : List StockDict) (fuel : Nat) (rest : List Char)
    (hf : l.length ≤ fuel) (hx : ∀ x ∈ l, x.length ≤ fuel + 1) :
    parseStockListChars fuel (dumpsStockListChars l ++ rest) = some (l, rest) := by
  match l with
  | [] => simp [dumpsStockListChars, parseStockListChars]
  | d :: ds =>
    obtain ⟨t, ht⟩ := head_dumpsDictChars d
    simp only [dumpsStockListChars, List.cons_append, List.append_assoc]
    rw [parseStockListChars]
    · rw [parseDict_dumps d fuel _ (hx d (by simp))]
      show parseDictsRest fuel fuel [d] (dumpsDictsTail ds ++ ']' :: rest) = _
      rw [parseDictsRest_dumps fuel ds fuel [d] rest (by simp at hf ⊢; omega)
        (fun x h => hx x (by simp [h]))]
      simp
    · intro r hr
      rw [ht] at hr
      simp at hr

theorem loadsStockLists_dumps (l : List StockDict) :
    loadsStockLists (dumpsStockList l) = some l := by
  have hbound := length_le_dumpsStockListChars l
  have hx : ∀ x ∈ l, x.length ≤ (dumpsStockListChars l).length + 1 := by
    intro x hxl
    have h1 := mem_length_le_dumpsStockListChars x l hxl
    have h2 := length_le_dumpsDictChars x
    omega
  have h2 := parseStockListChars_dumps l (dumpsStockListChars l).length []
    (by omega) (by simpa using hx)
  simp only [List.append_nil] at h2
  show (match parseStockListChars (dumpsStockListChars l).length (dumpsStockListChars l) with
    | some (l2, []) => some l2
    | _ => none) = some l
  rw [h2]

theorem parseStrsRest_dumps (l : List String) : ∀ (fuel : Nat)
    (acc : List String) (rest : List Char), l.length ≤ fuel →
    parseStrsRest fuel acc (dumpsStrsTail l ++ ']' :: rest)
      = some (acc.reverse ++ l, rest) := by
  induction l with
  | nil => intro fuel acc rest _; simp [dumpsStrsTail, parseStrsRest.eq_def]
  | cons s ss ih =>
    intro fuel acc rest hf
    match fuel, hf with
    | Nat.succ f, hf =>
      simp only [dumpsStrsTail, List.cons_append, List.append_assoc]
      rw [parseStrsRest]
      rw [parseJStr_jstr]
      show parseStrsRest f (s :: acc) (dumpsStrsTail ss ++ ']' :: rest) = _
      rw [ih f (s :: acc) rest (by simpa using hf)]
      simp

theorem parseStrListChars_dumps (l : List String) (fuel : Nat) (rest : List Char)
    (hf : l.length ≤ fuel) :
    parseStrListChars fuel (dumpsStrListChars l ++ rest) = some (l, rest) := by
  match l with
  | [] => simp [dumpsStrListChars, parseStrListChars]
  | s :: ss =>
    simp only [dumpsStrListChars, List.cons_append, List.append_assoc]
    rw [parseStrListChars]
    · rw [parseJStr_jstr]
      show parseStrsRest fuel [s] (dumpsStrsTail ss ++ ']' :: rest) = _
      rw [parseStrsRest_dumps ss fuel [s] rest (by simp at hf ⊢; omega)]
      simp
    · intro r hr
      simp [jstrChars] at hr

theorem length_le_dumpsStrsTail (l : List String) : l.length ≤ (dumpsStrsTail l).length := by
  induction l with
  | nil => simp [dumpsStrsTail]
  | cons s ss ih => simp [dumpsStrsTail]; omega

theorem length_le_dumpsStrListChars (l : List String) :
    l.length + 2 ≤ (dumpsStrListChars l).length := by
  match l with
  | [] => simp [dumpsStrListChars]
  | s :: ss =>
    have h1 := two_le_length_jstrChars s
    have h2 := length_le_dumpsStrsTail ss
    simp [dumpsStrListChars]
    omega

theorem loadsStrList_dumps (l : List String) :
    loadsStrList (dumpsStrList l) = some l := by
  have hbound := length_le_dumpsStrListChars l
  have h2 := parseStrListChars_dumps l (dumpsStrListChars l).length [] (by omega)
  simp only [List.append_nil] at h2
  show (match parseStrListChars (dumpsStrListChars l).length (dumpsStrListChars l) with
    | some (l2, []) => some l2
    | _ => none) = some l
  rw [h2]

theorem parse_json_field_dicts_dumps (l : List StockDict) :
    parse_json_field_dicts (some (dumpsStockList l)) = l := by
  match l with
  | [] => decide
  | x :: xs =>
    have hlen : (dumpsStockList (x :: xs)).length = (dumpsStockListChars (x :: xs)).length := rfl
    have hb := length_le_dumpsStockListChars (x :: xs)
    have hne1 : dumpsStockList (x :: xs) ≠ "" := by
      intro h
      have h0 := congrArg String.length h
      rw [hlen] at h0
      have he : ("" : String).length = 0 := rfl
      rw [he] at h0
      omega
    have hne2 : dumpsStockList (x :: xs) ≠ "[]" := by
      intro h
      have h0 := congrArg String.length h
      rw [hlen] at h0
      have he : ("[]" : String).length = 2 := rfl
      rw [he] at h0
      rw [h0] at hb
      simp at hb
    show (if dumpsStockList (x :: xs) = "" ∨ dumpsStockList (x :: xs) = "[]" then
        ([] : List StockDict)
      else (loadsStockLists (dumpsStockList (x :: xs))).getD []) = x :: xs
    rw [if_neg (by tauto)]
    rw [loadsStockLists_dumps]
    rfl

theorem parse_json_field_strs_dumps (l : List String) :
    parse_json_field_strs (some (dumpsStrList l)) = l := by
  match l with
  | [] => decide
  | x :: xs =>
    have hlen : (dumpsStrList (x :: xs)).length = (dumpsStrListChars (x :: xs)).length := rfl
    have hb := length_le_dumpsStrListChars (x :: xs)
    have hne1 : dumpsStrList (x :: xs) ≠ "" := by
      intro h
      have h0 := congrArg String.length h
      rw [hlen] at h0
      have he : ("" : String).length = 0 := rfl
      rw [he] at h0
      omega
    have hne2 : dumpsStrList (x :: xs) ≠ "[]" := by
      intro h
      have h0 := congrArg String.length h
      rw [hlen] at h0
      have he : ("[]" : String).length = 2 := rfl
      rw [he] at h0
      rw [h0] at hb
      simp at hb
    show (if dumpsStrList (x :: xs) = "" ∨ dumpsStrList (x :: xs) = "[]" then
        ([] : List String)
      else (loadsStrList (dumpsStrList (x :: xs))).getD []) = x :: xs
    rw [if_neg (by tauto)]
    rw [loadsStrList_dumps]
    rfl

end StockService

namespace StockService

/-! ## Claim theorems -/

unseal Rat.add Rat.sub Rat.mul Rat.inv in
/-- C1: evaluation at the failing input.  When the consecutive-board pool
call raises while every other source delivers data (limit-down pool 5
rows, working snapshot, burst pool, prior-day record), the local variable
four_plus_df is never assigned, line 264 raises UnboundLocalError, and the
aggregation returns the all-zeroed fallback record dated today — the
delivered limit_down_count of 5 is discarded, contradicting the claim
that only the failing sub-metric degrades and that the all-zeroed record
appears only when the pipeline cannot run at all. -/
theorem claim_C1_cont_pool_failure_aborts_pipeline :
    get_market_review_data srcC1 "20250106" "2025-01-07" = _get_empty_data "2025-01-07"
    ∧ srcC1.limitDownPool = some 5
    ∧ (_get_empty_data "2025-01-07").limit_down_count = 0 := by decide

/-- C2: for every aggregation result, first_board_count equals
max(0, limit_up_count - total_continuous_limit).  The guard at line 265
(first_board_count is 0 unless both counts are truthy) cannot diverge from
the formula on reachable results: a result with total_continuous_limit = 0
is the all-zeroed record, where limit_up_count is 0 as well, so the
"in particular" instance of the claim (total_continuous_limit = 0 with
limit_up_count > 0) never occurs in a result and the formula holds
throughout. -/
theorem claim_C2_first_board_count_formula (src : Sources) (d t : String) :
    (get_market_review_data src d t).first_board_count
      = max 0 (((get_market_review_data src d t).limit_up_count : Int)
          - ((get_market_review_data src d t).total_continuous_limit : Int)) := by
  unfold get_market_review_data
  by_cases hak : src.akAvailable
  · simp only [hak, not_true, if_false, ite_false, Bool.true_eq_false, if_neg, reduceIte]
    by_cases hfd : (contStep src.contPool).fourPlusDefined
    · have htot := contStep_total_ne_zero src.contPool hfd
      simp only [hfd, not_true, Bool.true_eq_false, reduceIte]
      by_cases hlu : src.limitUpPool.getD 0 = 0
      · simp only [hlu, ne_eq, not_true, false_and, reduceIte]
        omega
      · simp only [ne_eq, hlu, not_false_iff, true_and, reduceIte, htot]
    · simp only [Bool.not_eq_true] at hfd
      simp [hfd, _get_empty_data]
  · simp only [Bool.not_eq_true] at hak
    simp [hak, _get_empty_data]

unseal Rat.add Rat.sub Rat.mul Rat.inv in
/-- C3: counterexample.  srcC3 has a successful store lookup that finds no
prior record, total_continuous_limit 1 and total_stocks 2; the claim's
fallback formula round(1/2*100) would give 50, but the code leaves
continuous_limit_rate at 0.  -/
theorem claim_C3_counterexample :
    ¬ ((get_market_review_data srcC3 "20250106" "x").continuous_limit_rate
        = pyRound ((((get_market_review_data srcC3 "20250106" "x").total_continuous_limit : Rat)
            / ((get_market_review_data srcC3 "20250106" "x").total_stocks : Rat)) * 100)) := by
  decide

/-- C3 (amended): when the store lookup succeeds but finds no prior record
or a record with limit_up_count 0, continuous_limit_rate is 0; when a
prior record with limit_up_count k > 0 exists, it is
round(total_continuous_limit/k*100); the total_stocks fallback
round(total_continuous_limit/total_stocks*100) (0 when total_stocks is 0)
applies only when the lookup raises. -/
theorem claim_C3_continuous_limit_rate_amended (src : Sources) (d t : String) :
    (src.prevLimitUp = some none →
      (get_market_review_data src d t).continuous_limit_rate = 0)
    ∧ (src.prevLimitUp = some (some 0) →
      (get_market_review_data src d t).continuous_limit_rate = 0)
    ∧ (∀ k : Nat, src.prevLimitUp = some (some k) → 0 < k →
      (get_market_review_data src d t).continuous_limit_rate
        = pyRound ((((get_market_review_data src d t).total_continuous_limit : Rat)
            / (k : Rat)) * 100))
    ∧ (src.prevLimitUp = none →
      (get_market_review_data src d t).continuous_limit_rate
        = if (get_market_review_data src d t).total_stocks > 0 then
            pyRound ((((get_market_review_data src d t).total_continuous_limit : Rat)
              / ((get_market_review_data src d t).total_stocks : Rat)) * 100)
          else 0) := by
  refine ⟨?_, ?_, ?_, ?_⟩
  · intro h
    unfold get_market_review_data
    by_cases hak : src.akAvailable <;>
      by_cases hfd : (contStep src.contPool).fourPlusDefined <;>
      simp [hak, hfd, rateStep, h, _get_empty_data]
  · intro h
    unfold get_market_review_data
    by_cases hak : src.akAvailable <;>
      by_cases hfd : (contStep src.contPool).fourPlusDefined <;>
      simp [hak, hfd, rateStep, h, _get_empty_data]
  · intro k h hk
    unfold get_market_review_data
    by_cases hak : src.akAvailable <;>
      by_cases hfd : (contStep src.contPool).fourPlusDefined <;>
      simp [hak, hfd, rateStep, h, hk, _get_empty_data, pyRound_zero]
  · intro h
    unfold get_market_review_data
    by_cases hak : src.akAvailable <;>
      by_cases hfd : (contStep src.contPool).fourPlusDefined <;>
      simp [hak, hfd, rateStep, h, _get_empty_data]

unseal Rat.add Rat.sub Rat.mul Rat.inv in
/-- C3 (witness): the amended statement applied at concrete runs, one per
branch: a lookup that finds no record gives rate 0; a prior record with
limit_up_count 4 gives the prior-day formula; a raising lookup gives the
total_stocks fallback. -/
theorem claim_C3_continuous_limit_rate_amended_witness :
    (get_market_review_data srcC3 "20250106" "x").continuous_limit_rate = 0
    ∧ (get_market_review_data srcC3b "20250106" "x").continuous_limit_rate
        = pyRound ((((get_market_review_data srcC3b "20250106" "x").total_continuous_limit : Rat)
            / (4 : Rat)) * 100)
    ∧ (get_market_review_data srcC3c "20250106" "x").continuous_limit_rate
        = if (get_market_review_data srcC3c "20250106" "x").total_stocks > 0 then
            pyRound ((((get_market_review_data srcC3c "20250106" "x").total_continuous_limit : Rat)
              / ((get_market_review_data srcC3c "20250106" "x").total_stocks : Rat)) * 100)
          else 0 :=
  ⟨(claim_C3_continuous_limit_rate_amended srcC3 "20250106" "x").1 rfl,
   (claim_C3_continuous_limit_rate_amended srcC3b "20250106" "x").2.2.1 4 rfl (by norm_num),
   (claim_C3_continuous_limit_rate_amended srcC3c "20250106" "x").2.2.2 rfl⟩

unseal Rat.add Rat.sub Rat.mul Rat.inv in
/-- C4 evaluation of the §8 scenario: the shared field computation. -/
theorem reviewC4_fields :
    reviewC4.red_rate = 62 ∧ reviewC4.market_strength = "强"
    ∧ reviewC4.first_board_count = 47 ∧ reviewC4.limit_up_count = 50
    ∧ reviewC4.limit_down_count = 5 ∧ reviewC4.total_continuous_limit = 3
    ∧ reviewC4.two_board_count = 1 ∧ reviewC4.three_board_count = 1
    ∧ reviewC4.four_plus_count = 1 ∧ reviewC4.max_continuous_days = 5
    ∧ reviewC4.red_count = 2500 ∧ reviewC4.total_stocks = 4000 := by
  unfold reviewC4 get_market_review_data
  simp only [srcC4, Nat.reduceBNe]
  rw [statsStep_snapC4]
  decide

unseal Rat.add Rat.sub Rat.mul Rat.inv in
/-- C4: counterexample.  In the §8 scenario (snapshot 4000 rows with 2500
positive, limit-up pool 50 rows, board counts 2/3/5) the code computes
red_rate = round(62.5) = 62 under Python's round-half-to-even and
market_strength "强" (strong, since 0.625 ≥ 0.6), not the claimed 63 and
"偏强"/slightly strong. -/
theorem claim_C4_counterexample :
    ¬ (reviewC4.red_rate = 63 ∧ reviewC4.market_strength = "偏强"
        ∧ reviewC4.first_board_count = 47) := by
  intro hcon
  have h := reviewC4_fields
  have h62 : (62 : Int) = 63 := by rw [← h.1]; exact hcon.1
  exact absurd h62 (by decide)

/-- C4 (amended): in the §8 scenario the aggregator computes red_rate = 62
(round-half-to-even of 62.5), market_strength = "强" (strong: 0.625 ≥ 0.6),
first_board_count = 47, and all the other scenario counts exactly as the
spec lists them. -/
theorem claim_C4_scenario_amended :
    reviewC4.red_rate = 62 ∧ reviewC4.market_strength = "强"
    ∧ reviewC4.first_board_count = 47 ∧ reviewC4.limit_up_count = 50
    ∧ reviewC4.limit_down_count = 5 ∧ reviewC4.total_continuous_limit = 3
    ∧ reviewC4.two_board_count = 1 ∧ reviewC4.three_board_count = 1
    ∧ reviewC4.four_plus_count = 1 ∧ reviewC4.max_continuous_days = 5
    ∧ reviewC4.red_count = 2500 ∧ reviewC4.total_stocks = 4000 :=
  reviewC4_fields

unseal Rat.add Rat.sub Rat.mul Rat.inv in
/-- C5: counterexample.  With 4000 stocks, 3499 up, limit-up/limit-down
1/0 and three rising sectors the raw score is 74.9975: the reported
emotion_score rounds to exactly 75, yet the cycle label is 活跃 (active),
not 上升期 (rising) — the thresholds are applied before rounding, so a
reported score of exactly 75 does not imply "rising". -/
theorem claim_C5_counterexample :
    (get_market_emotion ⟨4000, 3499, 400, 0, 1, 0⟩ [1, 1, 1]).emotion_score = 75
    ∧ (get_market_emotion ⟨4000, 3499, 400, 0, 1, 0⟩ [1, 1, 1]).emotion_cycle = "活跃"
    ∧ "活跃" ≠ "上升期" := by decide

unseal Rat.add Rat.sub Rat.mul Rat.inv in
/-- C5 (amended): the emotion score is the 2-decimal rounding of the
clamped spec formula (base 50, breadth term, limit-extremes term, ±10
sector adjustment), and the cycle label is the first match high-to-low of
the thresholds 75/60/40/25 applied to the clamped score before rounding:
a pre-rounding score of exactly 75 maps to 上升期 (rising) and 74.99 maps
to 活跃 (active). -/
theorem claim_C5_sentiment_scorer_amended (st : MarketStats) (sectors : List Rat) :
    (get_market_emotion st sectors).emotion_score
      = pyRound2 (clamp0100 (emotionScoreSpec st sectors))
    ∧ (get_market_emotion st sectors).emotion_cycle
      = emotionCycleSpec (clamp0100 (emotionScoreSpec st sectors))
    ∧ emotionCycleSpec 75 = "上升期"
    ∧ emotionCycleSpec (7499/100) = "活跃" := by
  refine ⟨?_, ?_, by decide, by decide⟩
  · show pyRound2 (clamp0100 (emotionRaw st sectors)) = _
    rw [emotionRaw_eq_spec]
  · show emotion_cycle_of (clamp0100 (emotionRaw st sectors)) = _
    rw [emotionRaw_eq_spec, emotion_cycle_eq_spec]

unseal Rat.add Rat.sub Rat.mul Rat.inv in
/-- C6: counterexample.  A sector with change_pct 3.9996, 6 limit-ups and
no up_count contribution accumulates 69.996: the stored hot_score rounds
to exactly 70, yet momentum is "medium", not "strong" — momentum is
classified on the pre-rounding sum, so hot_score ≥ 70 does not imply
"strong". -/
theorem claim_C6_counterexample :
    ((analyze_sector_rotation [⟨"s1", "n1", 9999/2500, 6, 0, 10⟩]).map
      (fun e => (e.hot_score, e.momentum))) = [(70, "medium")]
    ∧ ((70 : Rat) ≥ 70) ∧ "medium" ≠ "strong" := by decide

/-- C6 (amended): each output entry carries the spec's per-sector values —
hot_score the 2-decimal rounding of the three capped contributions,
momentum by the 70/40 thresholds and rotation_trend by the asymmetric
in/out rule, both applied to the pre-rounding sum — and the returned list
is the stable descending sort by hot_score of the per-sector entries:
it is pairwise sorted, and for every score value the entries carrying it
appear in their original relative order. -/
theorem claim_C6_sector_rotation_amended (sectors : List SectorRecord) :
    analyze_sector_rotation sectors = sortDesc (sectors.map rotationEntrySpec)
    ∧ (analyze_sector_rotation sectors).Pairwise (fun a b => b.hot_score ≤ a.hot_score)
    ∧ ∀ c : Rat, (analyze_sector_rotation sectors).filter (fun e => e.hot_score == c)
        = (sectors.map rotationEntry).filter (fun e => e.hot_score == c) := by
  refine ⟨?_, sortDesc_pairwise _, fun c => filter_sortDesc c _⟩
  unfold analyze_sector_rotation
  rw [funext rotationEntry_eq_spec]

unseal Rat.add Rat.sub Rat.mul Rat.inv in
/-- C7: evaluation of the Numeric Normalizer.  The percent branch calls
float() outside any try block, so "ab%" raises ValueError instead of
returning 0.0 — the function is not total; every other documented case
behaves as specified ("" and "-" give 0.0, "3.5%" gives 3.5, "1.2万"
gives 12000, "1亿" gives 1e8, "abc" gives 0.0). -/
theorem claim_C7_parse_number_percent_branch_raises :
    parse_number "ab%" = .error ()
    ∧ parse_number "" = .ok 0
    ∧ parse_number "-" = .ok 0
    ∧ parse_number "3.5%" = .ok (7/2)
    ∧ parse_number "1.2万" = .ok 12000
    ∧ parse_number "1亿" = .ok 100000000
    ∧ parse_number "abc" = .ok 0 := by decide

/-- C8: list-valued fields round-trip losslessly through create followed
by get_by_date — the re-read four_plus_stocks, three_board_stocks,
hot_sectors and both *_with_sector lists equal the originals in keys,
values and order — and a stored NULL, empty string or "[]" deserializes
to the empty list. -/
theorem claim_C8_round_trip (st : Store) (d : ReviewData)
    (h : ∀ r ∈ st.rows, r.date ≠ d.date) :
    ((MarketReviewModel.get_by_date (MarketReviewModel.create st d).2 d.date).map
        (fun rec => rec.four_plus_stocks)) = some d.four_plus_stocks
    ∧ ((MarketReviewModel.get_by_date (MarketReviewModel.create st d).2 d.date).map
        (fun rec => rec.three_board_stocks)) = some d.three_board_stocks
    ∧ ((MarketReviewModel.get_by_date (MarketReviewModel.create st d).2 d.date).map
        (fun rec => rec.hot_sectors)) = some d.hot_sectors
    ∧ ((MarketReviewModel.get_by_date (MarketReviewModel.create st d).2 d.date).map
        (fun rec => rec.three_board_stocks_with_sector))
      = some d.three_board_stocks_with_sector
    ∧ ((MarketReviewModel.get_by_date (MarketReviewModel.create st d).2 d.date).map
        (fun rec => rec.four_plus_stocks_with_sector))
      = some d.four_plus_stocks_with_sector
    ∧ parse_json_field_dicts none = [] ∧ parse_json_field_dicts (some "") = []
    ∧ parse_json_field_dicts (some "[]") = [] ∧ parse_json_field_strs none = []
    ∧ parse_json_field_strs (some "") = [] ∧ parse_json_field_strs (some "[]") = [] := by
  have hany : st.rows.any (fun r => r.date = d.date) = false := by
    rw [List.any_eq_false]
    intro r hr
    simpa using h r hr
  have key : MarketReviewModel.get_by_date (MarketReviewModel.create st d).2 d.date
      = some (MarketReviewModel._row_to_dict
        { id := st.nextId, date := d.date, volume := d.volume,
          red_count := d.red_count, green_count := d.green_count,
          limit_up_count := d.limit_up_count, limit_down_count := d.limit_down_count,
          zt_count := d.zt_count, zt_rate := d.zt_rate,
          total_continuous_limit := d.total_continuous_limit,
          continuous_limit_rate := d.continuous_limit_rate,
          four_plus_count := d.four_plus_count,
          four_plus_stocks := some (dumpsStockList d.four_plus_stocks),
          two_board_count := d.two_board_count,
          three_board_count := d.three_board_count,
          three_board_stocks := some (dumpsStockList d.three_board_stocks),
          total_stocks := d.total_stocks,
          hot_sectors := some (dumpsStrList d.hot_sectors),
          notes := d.notes, red_rate := d.red_rate,
          market_strength := d.market_strength,
          max_continuous_days := d.max_continuous_days,
          first_board_count := d.first_board_count,
          three_board_stocks_with_sector :=
            some (dumpsStockList d.three_board_stocks_with_sector),
          four_plus_stocks_with_sector :=
            some (dumpsStockList d.four_plus_stocks_with_sector) }) := by
    unfold MarketReviewModel.create MarketReviewModel.get_by_date
    rw [if_neg (by simp [hany])]
    rw [List.find?_append, List.find?_eq_none.mpr (fun x hx => by simpa using h x hx)]
    simp [List.find?]
  rw [key]
  refine ⟨?_, ?_, ?_, ?_, ?_, rfl, by decide, by decide, rfl, by decide, by decide⟩ <;>
    first
      | rfl
      | simp [MarketReviewModel._row_to_dict, parse_json_field_dicts_dumps,
          parse_json_field_strs_dumps]

/-- C8 (witness): an empty store and a review dict with non-empty stock
lists, including quote and backslash characters in a name: the re-read
three_board_stocks equals the original. -/
theorem claim_C8_round_trip_witness :
    (∀ r ∈ storeEmpty.rows, r.date ≠ dataC8.date)
    ∧ ((MarketReviewModel.get_by_date (MarketReviewModel.create storeEmpty dataC8).2
        dataC8.date).map (fun rec => rec.three_board_stocks))
      = some dataC8.three_board_stocks :=
  ⟨by simp [storeEmpty],
   (claim_C8_round_trip storeEmpty dataC8 (by simp [storeEmpty])).2.1⟩

/-- C9: creating a record for a date that already exists in the store
returns the duplicate signal (None) instead of an id, and the store —
including the existing record for that date — is left unchanged. -/
theorem claim_C9_duplicate_create (st : Store) (d : ReviewData) (r : StoredRow)
    (hr : r ∈ st.rows) (hd : r.date = d.date) :
    (MarketReviewModel.create st d).1 = none
    ∧ (MarketReviewModel.create st d).2 = st := by
  have hany : st.rows.any (fun x => x.date = d.date) = true :=
    List.any_eq_true.mpr ⟨r, hr, by simp [hd]⟩
  unfold MarketReviewModel.create
  rw [if_pos (by simp [hany])]
  exact ⟨rfl, rfl⟩

/-- C9 (witness): a store holding a row dated 2025-01-05 rejects a second
create for that date and is unchanged. -/
theorem claim_C9_duplicate_create_witness :
    (rowC9 ∈ storeC9.rows ∧ rowC9.date = dataC9.date)
    ∧ ((MarketReviewModel.create storeC9 dataC9).1 = none
      ∧ (MarketReviewModel.create storeC9 dataC9).2 = storeC9) :=
  ⟨⟨by decide, rfl⟩, claim_C9_duplicate_create storeC9 dataC9 rowC9 (by decide) rfl⟩

/-- C10: every entry of three_board_stocks_with_sector and
four_plus_stocks_with_sector has empty-string name, code and sector: the
pool rows carry the keys 代码 and 名称, while the enrichment reads 'name'
and 'code', whose lookups miss and default to ''. -/
theorem claim_C10_with_sector_entries_empty (src : Sources) (d t : String) :
    (∀ x ∈ (get_market_review_data src d t).three_board_stocks_with_sector,
      x = [("name", ""), ("code", ""), ("sector", "")])
    ∧ (∀ x ∈ (get_market_review_data src d t).four_plus_stocks_with_sector,
      x = [("name", ""), ("code", ""), ("sector", "")]) := by
  constructor
  · intro x hx
    rcases result_tbsws_eq src d t with hq | hq
    · rw [hq] at hx
      rcases contStep_threeStocks_shape src.contPool with hs | ⟨rows, hs⟩
      · rw [hs] at hx; simp [_extract_stocks_with_sector] at hx
      · rw [hs] at hx; exact extract_entry_empty rows x hx
    · rw [hq] at hx; simp at hx
  · intro x hx
    rcases result_fpsws_eq src d t with hq | hq
    · rw [hq] at hx
      rcases contStep_fourStocks_shape src.contPool with hs | ⟨rows, hs⟩
      · rw [hs] at hx; simp [_extract_stocks_with_sector] at hx
      · rw [hs] at hx; exact extract_entry_empty rows x hx
    · rw [hq] at hx; simp at hx

unseal Rat.add Rat.sub Rat.mul Rat.inv in
/-- C10 (witness): srcC10's pool holds a three-board stock, so the
enriched list is non-empty and its entry is the all-empty dict. -/
theorem claim_C10_with_sector_entries_empty_witness :
    ([("name", ""), ("code", ""), ("sector", "")] : StockDict)
        ∈ reviewC10.three_board_stocks_with_sector
    ∧ ([("name", ""), ("code", ""), ("sector", "")] : StockDict)
        = [("name", ""), ("code", ""), ("sector", "")] :=
  ⟨by decide,
   (claim_C10_with_sector_entries_empty srcC10 "20250106" "2025-01-06").1
     [("name", ""), ("code", ""), ("sector", "")] (by decide)⟩

end StockService
